import Mathlib

/-!
# Verification of the watcher change-detection pipeline

A shallow embedding of the core of the `watcher` repository
(`src/watcher/core/storage.py`, `diff_utils.py`, `rss_manager.py`,
`scraper.py` and `src/watcher/lib.py`) together with proofs of the
frozen claims about it.

Modelling conventions:
* Python strings are `String` (or `List Char` where the code works
  character-by-character, as the diff utilities do);
* Python dicts with string keys are association lists of `PyVal`;
* the filesystem, clock, network and subprocess results are explicit
  environment records threaded into the functions that consume them;
* a Python exception is `Except.error m` with `m` the exception text;
  state already mutated before the raise is returned alongside it.
-/

namespace Watcher

/-- A value stored in one of the string-keyed Python dicts the pipeline
passes around: either a string or a boolean (`'error': True`). -/
inductive PyVal where
  | str : String → PyVal
  | bool : Bool → PyVal
deriving DecidableEq, Repr

/-- A Python dict with string keys, kept in insertion order. -/
abbrev PyDict := List (String × PyVal)

/-- `d.get(k)`: the first binding of `k`, if any. -/
def pyGet (d : PyDict) (k : String) : Option PyVal :=
  (d.find? (fun p => p.1 == k)).map (fun p => p.2)

/-- `d[k]` for a string-valued entry; a missing key raises `KeyError`,
modelled as `Except.error`. -/
def pyGetStr (d : PyDict) (k : String) : Except String String :=
  match pyGet d k with
  | some (PyVal.str s) => Except.ok s
  | some (PyVal.bool _) => Except.error ("TypeError: " ++ k)
  | none => Except.error ("KeyError: " ++ k)

/-! ## Version store data model (`storage.py`) -/

/-- The per-site metadata record `.metadata.json`
(`{last_hash, last_update, last_filename}`); a fresh site has none of
the keys, hence all fields optional. -/
structure Metadata where
  last_hash : Option String
  last_update : Option String
  last_filename : Option String
deriving DecidableEq, Repr

/-- State owned by `ContentStorage` for one site: the metadata record
and the snapshot artifacts already written to `content/<feed>/`
(newest first; only the filenames matter to the pipeline). -/
structure StorageState where
  metadata : Metadata
  files : List String
deriving DecidableEq, Repr

/-- `ContentStorage.has_content_changed`:
`metadata.get('last_hash') != content_hash` (an absent key is `None`,
which differs from every string). -/
def has_content_changed (md : Metadata) (content_hash : String) : Bool :=
  decide (md.last_hash ≠ some content_hash)

/-- `ContentStorage.should_check`.  `parse` is `dateutil.parser.parse`
returning the timestamp in seconds (`none` = the parse raised), `now`
is `datetime.now(timezone.utc)` in the same units.  The stored
timestamp is consulted only when `min_hours` is given; a missing or
empty stored value, or a failing parse, yields `true` (fail open). -/
def should_check (parse : String → Option ℚ) (now : ℚ)
    (md : Metadata) (min_hours : Option ℚ) : Bool :=
  match min_hours with
  | none => true
  | some h =>
    match md.last_update with
    | none => true
    | some lu =>
      if lu = "" then true
      else
        match parse lu with
        | none => true
        | some t => decide ((now - t) / 3600 ≥ h)

/-! ## Diff engine (`diff_utils.py`)

The diff utilities work on raw text line-by-line, so they are embedded
over `List Char`.  `splitNl`/`joinNl` are Python's
`s.split('\n')` / `'\n'.join(...)`. -/

/-- Python `s.split('\n')` on the character list of `s`. -/
def splitNl : List Char → List (List Char)
  | [] => [[]]
  | c :: r =>
    if c = '\n' then [] :: splitNl r
    else
      match splitNl r with
      | [] => [[c]]
      | h :: t => (c :: h) :: t

/-- Python `'\n'.join(lines)`. -/
def joinNl : List (List Char) → List Char
  | [] => []
  | [l] => l
  | l :: ls => l ++ '\n' :: joinNl ls

/-- Python `s.startswith(p)` on character lists (`startsWithL p s`). -/
def startsWithL : List Char → List Char → Bool
  | [], _ => true
  | _ :: _, [] => false
  | p :: ps, c :: cs => p == c && startsWithL ps cs

/-- Python `p in s` (substring containment) on character lists. -/
def containsSub (p : List Char) : List Char → Bool
  | [] => startsWithL p []
  | c :: cs => startsWithL p (c :: cs) || containsSub p cs

/-- Lines kept by `DiffUtils.clean_diff_output`: hunk headers and
content lines. -/
def keepDiffLine (l : List Char) : Bool :=
  startsWithL ['@', '@'] l || startsWithL ['+'] l ||
  startsWithL ['-'] l || startsWithL [' '] l

/-- Lines skipped by `DiffUtils.clean_diff_output`: git metadata. -/
def skipGitMeta (l : List Char) : Bool :=
  startsWithL ("diff --git").data l || startsWithL ("index ").data l ||
  startsWithL ("---").data l || startsWithL ("+++").data l

/-- `DiffUtils.clean_diff_output`: drop git metadata lines, keep only
hunk-header/`+`/`-`/context lines, rejoin. -/
def clean_diff_output (d : List Char) : List Char :=
  joinNl ((splitNl d).filter (fun l => !skipGitMeta l && keepDiffLine l))

/-- The result of the `git diff --no-index` subprocess call inside
`DiffUtils.generate_unified_diff`: it either raised or ran with a
return code and captured stdout. -/
inductive GitOutcome where
  | raised : GitOutcome
  | ran : Int → String → GitOutcome
deriving DecidableEq, Repr

/-- `DiffUtils.generate_unified_diff`: return codes 0 and 1 yield the
cleaned stdout, anything else (or a raise) yields `None`. -/
def generate_unified_diff (g : GitOutcome) : Option (List Char) :=
  match g with
  | GitOutcome.raised => none
  | GitOutcome.ran rc out =>
    if rc = 0 ∨ rc = 1 then some (clean_diff_output out.data) else none

/-- A parsed hunk header `@@ -a[,b] +c[,d] @@rest`.  The numbers are
kept as the digit strings the Python regex captured (the code
re-interpolates the captured strings, it never converts them). -/
structure Hunk where
  oldStart : List Char
  oldCount : List Char
  newStart : List Char
  newCount : List Char
  rest : List Char
deriving DecidableEq, Repr

/-- The regex fragment `(\d+),?(\d*)`: leading digit run, optional
comma, second digit run.  For this pattern greedy matching coincides
with Python's backtracking search (a shorter digit run would leave a
digit where the following literal space is required). -/
def parsePair (l : List Char) : Option (List Char × List Char × List Char) :=
  let a := l.takeWhile Char.isDigit
  let r1 := l.dropWhile Char.isDigit
  if a = [] then none
  else
    let r2 := if r1.head? = some ',' then r1.tail else r1
    some (a, r2.takeWhile Char.isDigit, r2.dropWhile Char.isDigit)

/-- `re.match(r'@@ -(\d+),?(\d*) \+(\d+),?(\d*) @@(.*)', line)` from
`DiffUtils.generate_reverse_diff`. -/
def parseHunkHeader (l : List Char) : Option Hunk :=
  match l with
  | '@' :: '@' :: ' ' :: '-' :: r =>
    match parsePair r with
    | none => none
    | some (a, b, r3) =>
      match r3 with
      | ' ' :: '+' :: r4 =>
        match parsePair r4 with
        | none => none
        | some (c, d, r5) =>
          match r5 with
          | ' ' :: '@' :: '@' :: rest => some ⟨a, b, c, d, rest⟩
          | _ => none
      | _ => none
  | _ => none

/-- The header string `generate_reverse_diff` rebuilds from captured
groups: `@@ -{oldStart}[,{oldCount}] +{newStart}[,{newCount}] @@{rest}`
(a count is emitted only when its captured string is non-empty). -/
def renderHeader (h : Hunk) : List Char :=
  '@' :: '@' :: ' ' :: '-' ::
    (h.oldStart ++ (if h.oldCount = [] then [] else ',' :: h.oldCount) ++
      ' ' :: '+' ::
        (h.newStart ++ (if h.newCount = [] then [] else ',' :: h.newCount) ++
          ' ' :: '@' :: '@' :: h.rest))

/-- Swapping the old and new (start, count) pairs of a hunk header. -/
def swapHunk (h : Hunk) : Hunk :=
  ⟨h.newStart, h.newCount, h.oldStart, h.oldCount, h.rest⟩

/-- One iteration of the loop in `DiffUtils.generate_reverse_diff`:
the lines appended for one input line.  A line starting `@@` that
fails the regex appends nothing (it is dropped). -/
def reverseLine (l : List Char) : List (List Char) :=
  if startsWithL ['@', '@'] l then
    match parseHunkHeader l with
    | some h => [renderHeader (swapHunk h)]
    | none => []
  else if startsWithL ['+'] l then ['-' :: l.tail]
  else if startsWithL ['-'] l then ['+' :: l.tail]
  else [l]

/-- `DiffUtils.generate_reverse_diff`. -/
def generate_reverse_diff (d : List Char) : List Char :=
  joinNl ((splitNl d).map reverseLine).flatten

/-- `DiffUtils.validate_diff`: empty is valid; otherwise require the
substring `"@@ "` somewhere and a valid prefix on every non-empty
line. -/
def validate_diff (d : List Char) : Bool :=
  if d = [] then true
  else if !containsSub ("@@ ").data d then false
  else
    (splitNl d).all (fun l =>
      if l = [] then true
      else
        startsWithL ['@', '@'] l || startsWithL ['+'] l ||
        startsWithL ['-'] l || startsWithL [' '] l)

/-! ## Version store operations (`storage.py`, continued) -/

/-- Python truthiness of an optional string (`None` and `""` are
falsy), used by `get_html_diff`'s `if new_html and old_html`. -/
def truthy : Option String → Bool
  | none => false
  | some s => !(s == "")

/-- External effects consumed by one `ContentStorage.save_content`
call: the strftime stamp used for the new filename, whether the
snapshot-artifact write succeeds (an I/O failure raises), whether the
previous snapshot file still exists, what
`extract_html_content_from_file` yields for the new and old artifacts
(`none` = unreadable file or no `<div class="content">` match), and
the result of the `git diff` subprocess. -/
structure StorageEnv where
  nowStamp : String
  writeOk : Bool
  oldExists : Bool
  newExtract : Option String
  oldExtract : Option String
  git : GitOutcome

/-- `ContentStorage.get_html_diff`: diff the extracted bodies of the
two artifacts; if either extraction is falsy the diff is skipped and
`None` returned. -/
def get_html_diff (newExtract oldExtract : Option String)
    (git : GitOutcome) : Option (List Char) :=
  if truthy newExtract && truthy oldExtract then generate_unified_diff git
  else none

/-- `ContentStorage.save_content`.  Returns the Python return value
(`None` for the unchanged no-op, else the new filename and optional
diff) as an `Except` — `Except.error` is an uncaught exception — and
the storage state as it stands when the call ends, mutated or not.

Source order preserved: the change gate runs first; the HTML document
interpolates `content`, `title`, `url`, `timestamp` (each a `KeyError`
if missing) before the artifact write; the diff against the previous
artifact is computed after the write; the metadata record is rewritten
last. -/
def save_content (env : StorageEnv) (s : StorageState) (content_data : PyDict) :
    Except String (Option (String × Option (List Char))) × StorageState :=
  match pyGetStr content_data "hash" with
  | Except.error m => (Except.error m, s)
  | Except.ok h =>
    if !has_content_changed s.metadata h then
      (Except.ok none, s)
    else
      let html_filename := env.nowStamp ++ ".html"
      match pyGetStr content_data "content" with
      | Except.error m => (Except.error m, s)
      | Except.ok _ =>
        match pyGetStr content_data "title" with
        | Except.error m => (Except.error m, s)
        | Except.ok _ =>
          match pyGetStr content_data "url" with
          | Except.error m => (Except.error m, s)
          | Except.ok _ =>
            match pyGetStr content_data "timestamp" with
            | Except.error m => (Except.error m, s)
            | Except.ok ts =>
              if env.writeOk then
                let s1 : StorageState := { s with files := html_filename :: s.files }
                let diff_content : Option (List Char) :=
                  match s1.metadata.last_filename with
                  | some _ =>
                    if env.oldExists then
                      get_html_diff env.newExtract env.oldExtract env.git
                    else none
                  | none => none
                (Except.ok (some (html_filename, diff_content)),
                 { s1 with metadata :=
                    { last_hash := some h, last_update := some ts,
                      last_filename := some html_filename } })
              else (Except.error "OSError: artifact write failed", s)

/-! ## Feed builder (`rss_manager.py`)

The feed document is modelled as its channel metadata plus the ordered
item list; reading the just-written document back returns those items
(a missing or corrupt document reads back as no items). -/

/-- The `rss_item` dict handed to `create_or_update_feed` by `lib.py`. -/
structure RSSInputItem where
  title : String
  description : String
  timestamp : String
  hash : String
  filename : String
deriving DecidableEq, Repr

/-- One `<item>` of the feed document (`new_item_dict` in the source);
`pubdate` is the parsed timestamp. -/
structure RSSEntry where
  title : String
  link : String
  description : String
  unique_id : String
  pubdate : Option ℚ
deriving DecidableEq, Repr

/-- The persisted feed document: regenerated channel metadata and the
retained items, newest first. -/
structure FeedDoc where
  channel_title : String
  channel_link : String
  channel_description : String
  items : List RSSEntry
deriving DecidableEq, Repr

/-- Environment of `RSSManager`: the resolved base URL,
`dateutil.parser.parse` for `pubDate` values (in seconds, `none` = the
parse raised), and whether the feed-document write succeeds. -/
structure RSSEnv where
  base_url : String
  parse : String → Option ℚ
  writeOk : Bool

/-- `RSSManager.get_latest_content_file`: the lexicographically last
snapshot filename (`sorted(html_files)[-1]`), `None` when there are
none.  The content directory holds exactly the `*.html` snapshot
artifacts tracked in `StorageState.files`. -/
def latestFile : List String → Option String
  | [] => none
  | f :: fs =>
    match latestFile fs with
    | none => some f
    | some g => some (if f < g then g else f)

/-- Items read back by `RSSManager._load_existing_items`: the items of
the existing document, or none when the document is absent (or fails
to parse, which the source recovers as an empty list). -/
def itemsOf : Option FeedDoc → List RSSEntry
  | none => []
  | some fd => fd.items

/-- The entry `create_or_update_feed` builds for one input item. -/
def mkEntry (env : RSSEnv) (feed_name : String) (i : RSSInputItem) : RSSEntry :=
  { title := i.title,
    link := env.base_url ++ "/content/" ++ feed_name ++ "/" ++ i.filename ++
      "?date=" ++ i.timestamp,
    description := i.description,
    unique_id := feed_name ++ "-" ++ i.hash.take 8,
    pubdate := env.parse i.timestamp }

/-- `RSSManager.create_or_update_feed`: read the existing items back,
prepend the new entry, keep at most 19 of the old ones, and rewrite
the whole document.  `parser.parse` of the new timestamp raises before
anything is written; a failing document write raises after. -/
def create_or_update_feed (env : RSSEnv) (feed_name : String)
    (contentFiles : List String) (new_item : RSSInputItem)
    (cur : Option FeedDoc) : Except String FeedDoc :=
  let latest_link :=
    match latestFile contentFiles with
    | some lf => env.base_url ++ "/content/" ++ feed_name ++ "/" ++ lf
    | none => env.base_url ++ "/feeds/" ++ feed_name ++ ".xml"
  let existing_items := itemsOf cur
  match env.parse new_item.timestamp with
  | none => Except.error "dateutil: unparseable timestamp"
  | some _ =>
    let items := mkEntry env feed_name new_item :: existing_items.take 19
    if env.writeOk then
      Except.ok
        { channel_title := feed_name ++ " Updates",
          channel_link := latest_link,
          channel_description := "Updates from " ++ feed_name,
          items := items }
    else Except.error "OSError: feed write failed"

/-- `N` successive `create_or_update_feed` calls, each against the
document the previous one wrote. -/
def publishAll (env : RSSEnv) (feed_name : String) (contentFiles : List String) :
    List RSSInputItem → Option FeedDoc → Except String (Option FeedDoc)
  | [], cur => Except.ok cur
  | i :: rest, cur =>
    match create_or_update_feed env feed_name contentFiles i cur with
    | Except.error m => Except.error m
    | Except.ok fd => publishAll env feed_name contentFiles rest (some fd)

/-! ## Content extractor (`scraper.py`) -/

/-- The data of a Python exception caught by `fetch_content`. -/
structure ExcInfo where
  msg : String
  ty : String
  modname : String
  tb : String
deriving DecidableEq, Repr

/-- Environment of one `ContentScraper.fetch_content` call: either
some step of the fetch/extraction raised (`raised`), or the external
libraries produced a title, meta description, the inscriptis text
rendering and a capture timestamp; `sha256hex` is the hash function
over the normalized text. -/
structure FetchEnv where
  raised : Option ExcInfo
  title : String
  description : String
  textContent : String
  timestamp : String
  sha256hex : String → String

/-- The text-to-HTML loop of `fetch_content`, one line: rstrip; an
empty line becomes `<br>`; a line holding four spaces or a tab is
wrapped in `<pre>`; anything else in `<p>`. -/
def htmlifyLine (line : List Char) : List Char :=
  let l := (line.reverse.dropWhile Char.isWhitespace).reverse
  if l = [] then ("<br>").data
  else if containsSub [' ', ' ', ' ', ' '] l || l.contains '\t' then
    ("<pre>").data ++ l ++ ("</pre>").data
  else ("<p>").data ++ l ++ ("</p>").data

/-- The full text-to-HTML conversion of `fetch_content`. -/
def htmlify (text : String) : String :=
  ⟨joinNl ((splitNl text.data).map htmlifyLine)⟩

/-- `ContentScraper.fetch_content`: never raises; returns the
six-key success dict (with `hash` over the normalized text), or on
any exception the six-key error dict, which has no `hash` key. -/
def fetch_content (env : FetchEnv) (url : String) : PyDict :=
  match env.raised with
  | some e =>
    [("error", PyVal.bool true),
     ("error_message", PyVal.str e.msg),
     ("error_type", PyVal.str e.ty),
     ("error_module", PyVal.str e.modname),
     ("stack_trace", PyVal.str e.tb),
     ("url", PyVal.str url)]
  | none =>
    [("content", PyVal.str (htmlify env.textContent)),
     ("hash", PyVal.str (env.sha256hex env.textContent)),
     ("title", PyVal.str env.title),
     ("description", PyVal.str env.description),
     ("url", PyVal.str url),
     ("timestamp", PyVal.str env.timestamp)]

/-! ## Orchestrator (`lib.py`) -/

/-- `ScraperRequest` from `models.py`. -/
structure ScraperRequest where
  url : String
  feed_name : String
  base_url : Option String
  min_hours : Option ℚ

/-- `ScraperResult` from `models.py`, with the dataclass defaults. -/
structure ScraperResult where
  success : Bool
  changed : Bool
  filename : Option String := none
  feed_path : Option String := none
  error_message : Option String := none
  content_hash : Option String := none
  skipped : Bool := false
  error_details : Option PyDict := none
deriving DecidableEq, Repr

/-- Everything the pipeline touches on disk for one site. -/
structure WorldState where
  storage : StorageState
  feed : Option FeedDoc
deriving DecidableEq, Repr

/-- `RSSManager.__init__`'s base URL: the request's when truthy, else
the GitHub default built from `GITHUB_REPOSITORY`. -/
def resolveBaseUrl (b : Option String) (ghRepo : String) : String :=
  match b with
  | some s =>
    if s = "" then "https://github.com/" ++ ghRepo ++ "/blob/main" else s
  | none => "https://github.com/" ++ ghRepo ++ "/blob/main"

/-- Python `str(min_hours)` for the skip message. -/
def showOptQ : Option ℚ → String
  | none => "None"
  | some q => toString q.num ++ "/" ++ toString q.den

/-- Environment of one `scrape_and_update_feed` call: a possible
exception while constructing the components (directory creation),
the clock and `dateutil` parser used by `should_check`, the fetch and
storage environments, and the feed-builder collaborators
(`GITHUB_REPOSITORY`, pubDate parser, feed-write success). -/
structure LibEnv where
  initExc : Option String
  parse : String → Option ℚ
  now : ℚ
  fetch : FetchEnv
  storage : StorageEnv
  ghRepo : String
  rssParse : String → Option ℚ
  rssWriteOk : Bool

/-- The failure result the `except Exception as e` handler builds. -/
def errResult (m : String) : ScraperResult :=
  { success := false, changed := false, error_message := some m }

/-- `scrape_and_update_feed`: the per-site pipeline.  Total — every
exception of a stage is converted to a result — and returns the world
as it stands at the end, including mutations made before a failure. -/
def scrape_and_update_feed (env : LibEnv) (req : ScraperRequest)
    (w : WorldState) : ScraperResult × WorldState :=
  match env.initExc with
  | some m => (errResult m, w)
  | none =>
    if !should_check env.parse env.now w.storage.metadata req.min_hours then
      ({ success := true, changed := false, skipped := true,
         error_message := some ("Skipped - checked too recently (min_hours=" ++
           showOptQ req.min_hours ++ ")") }, w)
    else
      let content_data := fetch_content env.fetch req.url
      if content_data = [] then
        ({ success := false, changed := false,
           error_message := some "Failed to fetch content from URL" }, w)
      else
        match save_content env.storage w.storage content_data with
        | (Except.error m, st) => (errResult m, { w with storage := st })
        | (Except.ok none, st) =>
          match pyGetStr content_data "hash" with
          | Except.error m => (errResult m, { w with storage := st })
          | Except.ok h =>
            ({ success := true, changed := false, content_hash := some h },
             { w with storage := st })
        | (Except.ok (some (filename, diff_content)), st) =>
          let w1 : WorldState := { w with storage := st }
          let descBase :=
            match pyGet content_data "description" with
            | some (PyVal.str s) => s
            | _ => "Update from " ++ req.url
          let description :=
            match diff_content with
            | some dc =>
              if dc = [] then descBase
              else descBase ++ "\n\n" ++ String.mk dc
            | none => descBase
          match pyGetStr content_data "title" with
          | Except.error m => (errResult m, w1)
          | Except.ok title =>
            match pyGetStr content_data "timestamp" with
            | Except.error m => (errResult m, w1)
            | Except.ok ts =>
              match pyGetStr content_data "hash" with
              | Except.error m => (errResult m, w1)
              | Except.ok h =>
                let rssEnv : RSSEnv :=
                  { base_url := resolveBaseUrl req.base_url env.ghRepo,
                    parse := env.rssParse, writeOk := env.rssWriteOk }
                let item : RSSInputItem :=
                  { title := title, description := description,
                    timestamp := ts, hash := h, filename := filename }
                match create_or_update_feed rssEnv req.feed_name
                    w1.storage.files item w1.feed with
                | Except.error m => (errResult m, w1)
                | Except.ok fd =>
                  ({ success := true, changed := true,
                     filename := some filename,
                     feed_path := some ("feeds/" ++ req.feed_name ++ ".xml"),
                     content_hash := some h },
                   { w1 with feed := some fd })

/-- A line that matches the hunk-header pattern `@@ -a[,b] +c[,d] @@`
of the spec: the regex parses it, re-rendering the captured groups
reproduces the line exactly (ruling out degenerate matches such as
`@@ -1, +2 @@`, whose comma has no digits after it), and the captured
starts are non-empty digit runs, the counts digit runs. -/
def isValidHeader (l : List Char) : Bool :=
  match parseHunkHeader l with
  | some h =>
    (renderHeader h == l) && decide (h.oldStart ≠ []) &&
      h.oldStart.all Char.isDigit && h.oldCount.all Char.isDigit &&
      decide (h.newStart ≠ []) && h.newStart.all Char.isDigit &&
      h.newCount.all Char.isDigit
  | none => false

/-- A line of a valid unified diff: a hunk header matching the
pattern, a `+` line, a `-` line, or a context line (leading space, or
the empty line a trailing newline leaves behind). -/
def validLine (l : List Char) : Bool :=
  isValidHeader l || startsWithL ['+'] l || startsWithL ['-'] l ||
  startsWithL [' '] l || decide (l = [])

/-- A valid unified diff: every line is valid. -/
abbrev ValidDiff (d : List Char) : Prop :=
  ∀ l ∈ splitNl d, validLine l = true

/-! ## Concrete inputs used by the witness theorems -/

/-- A small valid unified diff exercising headers with and without
counts, `+`/`-` lines and a context line. -/
def dC6W : List Char := ("@@ -1,3 +2,4 @@ hdr\n+a\n-b\n c\n@@ -7 +8,2 @@\n+z").data

/-- A diff the code accepts although no line of it is a hunk header:
the substring `"@@ "` occurs inside a `+` line. -/
def dC7 : List Char := ("+a @@ b").data

/-- A small diff that is valid in every sense. -/
def dC7ok : List Char := ("@@ -1 +2 @@\n+x").data

/-- A parse function mapping every timestamp string to epoch 0. -/
def parseW : String → Option ℚ := fun _ => some 0

/-- A metadata record with a stored timestamp, for the cadence witness. -/
def mdW : Metadata := ⟨some "H", some "2024-01-01T00:00:00+00:00", none⟩

/-- A storage environment where every external effect succeeds. -/
def envOkW : StorageEnv :=
  ⟨"20240101-000000", true, true, some "new", some "old", GitOutcome.ran 1 "@@ -1 +1 @@\n-x\n+y"⟩

/-- A storage environment whose snapshot-artifact write fails. -/
def envBadWriteW : StorageEnv :=
  ⟨"20240101-000000", false, true, some "new", some "old", GitOutcome.ran 1 ""⟩

/-- A storage environment whose `git diff` subprocess raises. -/
def envBadGitW : StorageEnv :=
  ⟨"20240101-000000", true, true, some "new", some "old", GitOutcome.raised⟩

/-- A site that has already stored one snapshot with hash `"h1"`. -/
def sOldW : StorageState := ⟨⟨some "h1", some "t1", some "f1.html"⟩, ["f1.html"]⟩

/-- A content record whose fingerprint matches the stored one. -/
def cdSameW : PyDict := [("hash", PyVal.str "h1")]

/-- A full content record with a fresh fingerprint `"h2"`. -/
def cdNewW : PyDict :=
  [("content", PyVal.str "<p>x</p>"), ("hash", PyVal.str "h2"),
   ("title", PyVal.str "T"), ("description", PyVal.str "D"),
   ("url", PyVal.str "u"), ("timestamp", PyVal.str "ts2")]

/-- A fetch whose extraction pipeline succeeds with body `"body"`. -/
def feOkW : FetchEnv := ⟨none, "T", "D", "body", "TS", fun _ => "h2"⟩

/-- A fetch in which some step raised a `ValueError`. -/
def feErrW : FetchEnv :=
  ⟨some ⟨"boom", "ValueError", "builtins", "tb"⟩, "T", "D", "body", "TS", fun _ => "h2"⟩

/-- A request with no cadence bound. -/
def reqW : ScraperRequest := ⟨"http://example", "site", some "https://base", none⟩

/-- A world holding the `sOldW` site and no feed document yet. -/
def wWorldW : WorldState := ⟨sOldW, none⟩

/-- A pipeline environment whose feed-document write fails while
everything before it succeeds. -/
def envC9W : LibEnv := ⟨none, parseW, 0, feOkW, envOkW, "owner/repo", parseW, false⟩

/-- A pipeline environment whose fetch raised. -/
def envC10W : LibEnv := ⟨none, parseW, 0, feErrW, envOkW, "owner/repo", parseW, true⟩

/-- A pipeline environment where component construction raises an
exception whose text is empty (Python `str(e) == ""`). -/
def envEmptyExcW : LibEnv :=
  ⟨some "", parseW, 0, feOkW, envOkW, "owner/repo", parseW, true⟩

/-- A feed-builder environment whose writes succeed. -/
def rssEnvW : RSSEnv := ⟨"https://base", parseW, true⟩

/-- One feed input item. -/
def itW : RSSInputItem := ⟨"T", "D", "TS", "hash1234", "f.html"⟩

end Watcher

namespace Watcher

/-! ## Helper lemmas -/

/-- A successful fetch yields the six-key success dict. -/
theorem fetch_content_of_ok (fe : FetchEnv) (url : String) (h : fe.raised = none) :
    fetch_content fe url =
      [("content", PyVal.str (htmlify fe.textContent)),
       ("hash", PyVal.str (fe.sha256hex fe.textContent)),
       ("title", PyVal.str fe.title),
       ("description", PyVal.str fe.description),
       ("url", PyVal.str url),
       ("timestamp", PyVal.str fe.timestamp)] := by
  simp only [fetch_content, h]

/-- A raising fetch yields the six-key error dict. -/
theorem fetch_content_of_err (fe : FetchEnv) (url : String) (e : ExcInfo)
    (h : fe.raised = some e) :
    fetch_content fe url =
      [("error", PyVal.bool true),
       ("error_message", PyVal.str e.msg),
       ("error_type", PyVal.str e.ty),
       ("error_module", PyVal.str e.modname),
       ("stack_trace", PyVal.str e.tb),
       ("url", PyVal.str url)] := by
  simp only [fetch_content, h]

/-- Key lookups on a successful fetch record. -/
theorem fetch_get_ok (fe : FetchEnv) (url : String) (h : fe.raised = none) :
    pyGetStr (fetch_content fe url) "hash" =
      Except.ok (fe.sha256hex fe.textContent) ∧
    pyGetStr (fetch_content fe url) "content" =
      Except.ok (htmlify fe.textContent) ∧
    pyGetStr (fetch_content fe url) "title" = Except.ok fe.title ∧
    pyGetStr (fetch_content fe url) "url" = Except.ok url ∧
    pyGetStr (fetch_content fe url) "timestamp" = Except.ok fe.timestamp ∧
    pyGet (fetch_content fe url) "description" =
      some (PyVal.str fe.description) := by
  rw [fetch_content_of_ok fe url h]
  exact ⟨rfl, rfl, rfl, rfl, rfl, rfl⟩

/-- Both fetch outcomes produce a non-empty (truthy) dict. -/
theorem fetch_ne_nil (fe : FetchEnv) (url : String) :
    ¬ (fetch_content fe url = []) := by
  rcases h : fe.raised with _ | e
  · rw [fetch_content_of_ok fe url h]
    simp
  · rw [fetch_content_of_err fe url e h]
    simp

/-- Every `scrape_and_update_feed` outcome either reports success or
is a failure record with `changed=false` and its `error_message`
set. -/
theorem scrape_result_shape (env : LibEnv) (req : ScraperRequest)
    (w : WorldState) :
    (scrape_and_update_feed env req w).1.success = true ∨
    ((scrape_and_update_feed env req w).1.changed = false ∧
     ((scrape_and_update_feed env req w).1.error_message).isSome = true) := by
  have hne := fetch_ne_nil env.fetch req.url
  rcases hi : env.initExc with _ | m
  · by_cases hsc :
      should_check env.parse env.now w.storage.metadata req.min_hours = true
    · simp only [scrape_and_update_feed, hi, hsc, Bool.not_true,
        Bool.false_eq_true, if_false]
      rw [if_neg hne]
      repeat' split
      all_goals simp [errResult]
    · simp only [Bool.not_eq_true] at hsc
      simp [scrape_and_update_feed, hi, hsc]
  · simp [scrape_and_update_feed, hi, errResult]

/-- `save_content` on a changed record with a working write: the
artifact is written, the diff (possibly `none`) computed against the
previous artifact, and the metadata record rewritten last. -/
theorem save_content_success (env : StorageEnv) (s : StorageState) (cd : PyDict)
    (h c ttl u ts : String)
    (hh : pyGetStr cd "hash" = Except.ok h)
    (hc : pyGetStr cd "content" = Except.ok c)
    (ht : pyGetStr cd "title" = Except.ok ttl)
    (hu : pyGetStr cd "url" = Except.ok u)
    (hts : pyGetStr cd "timestamp" = Except.ok ts)
    (hch : s.metadata.last_hash ≠ some h)
    (hw : env.writeOk = true) :
    save_content env s cd =
      (Except.ok (some (env.nowStamp ++ ".html",
        match s.metadata.last_filename with
        | some _ =>
          if env.oldExists then
            get_html_diff env.newExtract env.oldExtract env.git
          else none
        | none => none)),
       { metadata := { last_hash := some h, last_update := some ts,
                       last_filename := some (env.nowStamp ++ ".html") },
         files := (env.nowStamp ++ ".html") :: s.files }) := by
  unfold save_content
  rw [hh, hc, ht, hu, hts]
  simp [has_content_changed, hch, hw]

end Watcher

namespace Watcher

/-! ## Claim C1 — change gating -/

/-- Claim C1: `save_content` is a no-op — it returns `None` (Python's
`None`, `Except.ok none` here), writes no snapshot artifact and
mutates no metadata — if and only if the record's fingerprint equals
the stored last fingerprint; a fresh site (absent `last_hash`) counts
as changed, so the first capture is always persisted. -/
theorem save_content_noop_iff (env : StorageEnv) (s : StorageState) (cd : PyDict)
    (h : String) (hh : pyGetStr cd "hash" = Except.ok h) :
    save_content env s cd = (Except.ok none, s) ↔
      s.metadata.last_hash = some h := by
  by_cases hch : s.metadata.last_hash = some h
  · simp only [save_content, hh, has_content_changed, hch]
    simp
  · apply iff_of_false _ hch
    intro hEq
    simp only [save_content, hh] at hEq
    rw [if_neg (by simp [has_content_changed, hch])] at hEq
    rcases h1 : pyGetStr cd "content" with m | cv <;> simp only [h1] at hEq
    · simp at hEq
    rcases h2 : pyGetStr cd "title" with m | tv <;> simp only [h2] at hEq
    · simp at hEq
    rcases h3 : pyGetStr cd "url" with m | uv <;> simp only [h3] at hEq
    · simp at hEq
    rcases h4 : pyGetStr cd "timestamp" with m | tsv <;> simp only [h4] at hEq
    · simp at hEq
    by_cases h5 : env.writeOk <;> simp [h5] at hEq

/-- Witness for C1 at a concrete site whose stored fingerprint equals
the incoming one: the call is exactly the no-op. -/
theorem save_content_noop_iff_w :
    save_content envOkW sOldW cdSameW = (Except.ok none, sOldW) :=
  (save_content_noop_iff envOkW sOldW cdSameW "h1" rfl).mpr rfl

/-! ## Claim C3 — cadence gating -/

/-- Claim C3: with a `min_hours` bound, `should_check` is `true` when
no last-check timestamp is stored (absent or empty, which
`dateutil` cannot parse) and when the stored timestamp fails to
parse; otherwise it is `false` exactly when the elapsed time since
the stored timestamp is strictly below `min_hours` hours. -/
theorem should_check_cadence (parse : String → Option ℚ) (now : ℚ)
    (md : Metadata) (h : ℚ) :
    (md.last_update = none → should_check parse now md (some h) = true) ∧
    (md.last_update = some "" → should_check parse now md (some h) = true) ∧
    (∀ lu, md.last_update = some lu → parse lu = none →
      should_check parse now md (some h) = true) ∧
    (∀ lu t, md.last_update = some lu → lu ≠ "" → parse lu = some t →
      (should_check parse now md (some h) = false ↔ now - t < h * 3600)) := by
  refine ⟨fun hn => by simp [should_check, hn],
          fun hn => by simp [should_check, hn], ?_, ?_⟩
  · intro lu hl hp
    by_cases he : lu = ""
    · simp [should_check, hl, he]
    · simp [should_check, hl, he, hp]
  · intro lu t hl he hp
    simp only [should_check, hl, he, if_false, hp]
    rw [decide_eq_false_iff_not, not_le, div_lt_iff₀ (by norm_num : (0:ℚ) < 3600)]

/-- Witness for C3: one stored hour elapsed against a two-hour bound
is gated off. -/
theorem should_check_cadence_w :
    should_check parseW 3600 mdW (some 2) = false :=
  ((should_check_cadence parseW 3600 mdW 2).2.2.2
      "2024-01-01T00:00:00+00:00" 0 rfl (by decide) rfl).mpr (by norm_num)

/-! ## Claim C5 — snapshot-write atomicity -/

/-- Claim C5: when the snapshot-artifact write fails, `save_content`
raises and the storage state — the metadata record in particular — is
returned completely unchanged: metadata is only rewritten after a
successful artifact write. -/
theorem save_content_write_failure (env : StorageEnv) (s : StorageState)
    (cd : PyDict) (h : String)
    (hh : pyGetStr cd "hash" = Except.ok h)
    (hch : s.metadata.last_hash ≠ some h)
    (hw : env.writeOk = false) :
    ∃ m, save_content env s cd = (Except.error m, s) := by
  simp only [save_content, hh]
  rw [if_neg (by simp [has_content_changed, hch])]
  rcases h1 : pyGetStr cd "content" with m | cv <;> simp only [h1]
  · exact ⟨m, rfl⟩
  rcases h2 : pyGetStr cd "title" with m | tv <;> simp only [h2]
  · exact ⟨m, rfl⟩
  rcases h3 : pyGetStr cd "url" with m | uv <;> simp only [h3]
  · exact ⟨m, rfl⟩
  rcases h4 : pyGetStr cd "timestamp" with m | tsv <;> simp only [h4]
  · exact ⟨m, rfl⟩
  refine ⟨"OSError: artifact write failed", ?_⟩
  rw [if_neg (by simp [hw])]

/-- Witness for C5: a concrete changed record against a failing write
leaves the state untouched. -/
theorem save_content_write_failure_w :
    ∃ m, save_content envBadWriteW sOldW cdNewW = (Except.error m, sOldW) :=
  save_content_write_failure envBadWriteW sOldW cdNewW "h2" rfl
    (by decide) rfl

/-! ## Claim C8 — diff failure degrades to no diff -/

/-- Claim C8: a diff-computation failure — the `git diff` subprocess
raising or failing, or the previous artifact being unreadable or
unextractable — never fails or skips the persist: `save_content`
completes normally and returns the new filename with a null diff,
the same shape as the first capture of a site. -/
theorem save_content_diff_failure (env : StorageEnv) (s : StorageState)
    (cd : PyDict) (h c ttl u ts : String)
    (hh : pyGetStr cd "hash" = Except.ok h)
    (hc : pyGetStr cd "content" = Except.ok c)
    (ht : pyGetStr cd "title" = Except.ok ttl)
    (hu : pyGetStr cd "url" = Except.ok u)
    (hts : pyGetStr cd "timestamp" = Except.ok ts)
    (hch : s.metadata.last_hash ≠ some h)
    (hw : env.writeOk = true)
    (hdf : env.oldExtract = none ∨ generate_unified_diff env.git = none) :
    save_content env s cd =
      (Except.ok (some (env.nowStamp ++ ".html", none)),
       { metadata := { last_hash := some h, last_update := some ts,
                       last_filename := some (env.nowStamp ++ ".html") },
         files := (env.nowStamp ++ ".html") :: s.files }) := by
  have hdiff : get_html_diff env.newExtract env.oldExtract env.git = none := by
    rcases hdf with h1 | h1
    · simp [get_html_diff, h1, truthy]
    · rw [get_html_diff, h1]
      simp
  rw [save_content_success env s cd h c ttl u ts hh hc ht hu hts hch hw]
  rcases hlf : s.metadata.last_filename with _ | f
  · simp
  · simp [hdiff]

/-- Witness for C8: the subprocess raising on a site with a previous
snapshot still persists and returns a null diff. -/
theorem save_content_diff_failure_w :
    save_content envBadGitW sOldW cdNewW =
      (Except.ok (some ("20240101-000000.html", none)),
       { metadata := { last_hash := some "h2", last_update := some "ts2",
                       last_filename := some "20240101-000000.html" },
         files := ["20240101-000000.html", "f1.html"] }) :=
  save_content_diff_failure envBadGitW sOldW cdNewW "h2" "<p>x</p>" "T" "u" "ts2"
    rfl rfl rfl rfl rfl (by decide) rfl (Or.inr rfl)

/-! ## Claim C10 — fetch totality and the unreachable fetch branch -/

/-- Claim C10: `fetch_content` never raises (it is a total function of
its environment) and never returns a falsy value — it returns either
a record holding a `hash` key or a non-empty error record without
one.  Hence the guard `if not content_data` in
`scrape_and_update_feed` never fires (the branch with error message
`Failed to fetch content from URL` is unreachable), and a fetch
failure instead surfaces through the generic handler as the
`KeyError` on the missing `hash` key, with `success=false` and the
world — snapshot artifacts and metadata — left untouched. -/
theorem fetch_content_shape :
    (∀ (fe : FetchEnv) (url : String), fetch_content fe url ≠ []) ∧
    (∀ (fe : FetchEnv) (url : String), fe.raised = none →
      pyGetStr (fetch_content fe url) "hash" =
        Except.ok (fe.sha256hex fe.textContent)) ∧
    (∀ (fe : FetchEnv) (url : String) (e : ExcInfo), fe.raised = some e →
      pyGet (fetch_content fe url) "hash" = none ∧
      pyGet (fetch_content fe url) "error_message" = some (PyVal.str e.msg)) ∧
    (∀ (env : LibEnv) (req : ScraperRequest) (w : WorldState) (e : ExcInfo),
      env.initExc = none →
      should_check env.parse env.now w.storage.metadata req.min_hours = true →
      env.fetch.raised = some e →
      scrape_and_update_feed env req w = (errResult "KeyError: hash", w)) := by
  refine ⟨?_, ?_, ?_, ?_⟩
  · intro fe url
    exact fetch_ne_nil fe url
  · intro fe url h
    exact (fetch_get_ok fe url h).1
  · intro fe url e h
    rw [fetch_content_of_err fe url e h]
    exact ⟨rfl, rfl⟩
  · intro env req w e h1 h2 h3
    simp only [scrape_and_update_feed, h1, h2, fetch_content_of_err env.fetch req.url e h3,
      Bool.not_true]
    rfl

/-- Witness for C10: a raised fetch ends in the `KeyError` failure
result with the world unchanged. -/
theorem fetch_content_shape_w :
    scrape_and_update_feed envC10W reqW wWorldW =
      (errResult "KeyError: hash", wWorldW) :=
  fetch_content_shape.2.2.2 envC10W reqW wWorldW
    ⟨"boom", "ValueError", "builtins", "tb"⟩ rfl rfl rfl

/-! ## Claim C9 — feed-write failure after a persisted snapshot -/

/-- Claim C9: if the feed publish step raises after `save_content`
already succeeded, the returned result reports `success=false`, yet
the site metadata record already holds the new fingerprint, capture
timestamp and snapshot filename, and the new artifact is on disk:
the snapshot persist is not rolled back on feed failure. -/
theorem scrape_feed_write_failure (env : LibEnv) (req : ScraperRequest)
    (w : WorldState)
    (h1 : env.initExc = none)
    (h2 : should_check env.parse env.now w.storage.metadata req.min_hours = true)
    (h3 : env.fetch.raised = none)
    (h4 : w.storage.metadata.last_hash ≠
      some (env.fetch.sha256hex env.fetch.textContent))
    (h5 : env.storage.writeOk = true)
    (h6 : env.rssWriteOk = false) :
    (scrape_and_update_feed env req w).1.success = false ∧
    ((scrape_and_update_feed env req w).1.error_message).isSome = true ∧
    (scrape_and_update_feed env req w).2.storage.metadata =
      { last_hash := some (env.fetch.sha256hex env.fetch.textContent),
        last_update := some env.fetch.timestamp,
        last_filename := some (env.storage.nowStamp ++ ".html") } ∧
    (scrape_and_update_feed env req w).2.storage.files =
      (env.storage.nowStamp ++ ".html") :: w.storage.files := by
  obtain ⟨hhash, hcont, htitle, hurl, hts, hdesc⟩ := fetch_get_ok env.fetch req.url h3
  have hsave := save_content_success env.storage w.storage
    (fetch_content env.fetch req.url) _ _ _ _ _ hhash hcont htitle hurl hts h4 h5
  have hne : fetch_content env.fetch req.url ≠ [] := by
    rw [fetch_content_of_ok env.fetch req.url h3]
    simp
  simp only [scrape_and_update_feed, h1, h2, Bool.not_true, Bool.false_eq_true,
    if_false, if_neg hne, hsave, hdesc, htitle, hts, hhash]
  rcases hp : env.rssParse env.fetch.timestamp with _ | tq <;>
    simp [create_or_update_feed, hp, h6, errResult]

/-- Witness for C9 at a fully concrete run whose feed write fails. -/
theorem scrape_feed_write_failure_w :
    (scrape_and_update_feed envC9W reqW wWorldW).1.success = false ∧
    ((scrape_and_update_feed envC9W reqW wWorldW).1.error_message).isSome = true ∧
    (scrape_and_update_feed envC9W reqW wWorldW).2.storage.metadata =
      { last_hash := some "h2", last_update := some "TS",
        last_filename := some "20240101-000000.html" } ∧
    (scrape_and_update_feed envC9W reqW wWorldW).2.storage.files =
      ["20240101-000000.html", "f1.html"] :=
  scrape_feed_write_failure envC9W reqW wWorldW rfl rfl rfl (by decide) rfl rfl

/-! ## Claim C4 — the orchestrator error boundary -/

/-- Claim C4 counterexample: the claim demands a *non-empty*
`error_message` for every converted exception, but the handler stores
`str(e)` verbatim, and a Python exception's text can be empty: with
component construction raising an exception whose text is `""`, the
result carries `error_message = some ""`. -/
theorem scrape_empty_error_message :
    ¬ (∀ (env : LibEnv) (req : ScraperRequest) (w : WorldState) (m : String),
        env.initExc = some m →
        (scrape_and_update_feed env req w).1.success = false ∧
        (scrape_and_update_feed env req w).1.changed = false ∧
        ∃ m2, (scrape_and_update_feed env req w).1.error_message = some m2 ∧
          m2 ≠ "") := by
  intro hcl
  obtain ⟨m2, hm, hne⟩ := (hcl envEmptyExcW reqW wWorldW "" rfl).2.2
  have hv : (scrape_and_update_feed envEmptyExcW reqW wWorldW).1.error_message =
      some "" := rfl
  rw [hv] at hm
  exact hne (Option.some.inj hm).symm

/-- Claim C4 (amended): `scrape_and_update_feed` never raises (it is a
total function of its environment), and every failure it reports —
every exception converted by the boundary — carries `changed=false`
and an `error_message` that is set, though possibly the empty string
when the exception's own text is empty. -/
theorem scrape_error_boundary (env : LibEnv) (req : ScraperRequest)
    (w : WorldState)
    (hfail : (scrape_and_update_feed env req w).1.success = false) :
    (scrape_and_update_feed env req w).1.changed = false ∧
    ((scrape_and_update_feed env req w).1.error_message).isSome = true := by
  rcases scrape_result_shape env req w with h | h
  · rw [hfail] at h
    cases h
  · exact h

/-- Witness for C4 (amended) at the empty-text exception. -/
theorem scrape_error_boundary_w :
    (scrape_and_update_feed envEmptyExcW reqW wWorldW).1.changed = false ∧
    ((scrape_and_update_feed envEmptyExcW reqW wWorldW).1.error_message).isSome
      = true :=
  scrape_error_boundary envEmptyExcW reqW wWorldW rfl

/-! ## Claim C2 — feed cap invariant -/

/-- Truncation absorption: prepending through the 19-item cap agrees
with capping the untruncated list at 20. -/
theorem take20_absorb (R : List RSSEntry) (x : RSSEntry) (t : List RSSEntry) :
    (R ++ x :: t.take 19).take 20 = (R ++ x :: t).take 20 := by
  rw [List.take_append_eq_append_take, List.take_append_eq_append_take]
  congr 1
  rcases Nat.lt_or_ge R.length 20 with hR | hR
  · have h1 : 20 - R.length = (19 - R.length) + 1 := by omega
    rw [h1, List.take_succ_cons, List.take_succ_cons, List.take_take,
      Nat.min_eq_left (Nat.sub_le 19 R.length)]
  · have h0 : 20 - R.length = 0 := by omega
    simp [h0]

/-- One successful `create_or_update_feed` call, fully described. -/
theorem create_or_update_feed_ok (env : RSSEnv) (fn : String)
    (cf : List String) (it : RSSInputItem) (cur : Option FeedDoc) (ts : ℚ)
    (hp : env.parse it.timestamp = some ts) (hw : env.writeOk = true) :
    create_or_update_feed env fn cf it cur =
      Except.ok
        { channel_title := fn ++ " Updates",
          channel_link :=
            match latestFile cf with
            | some lf => env.base_url ++ "/content/" ++ fn ++ "/" ++ lf
            | none => env.base_url ++ "/feeds/" ++ fn ++ ".xml",
          channel_description := "Updates from " ++ fn,
          items := mkEntry env fn it :: (itemsOf cur).take 19 } := by
  simp only [create_or_update_feed, hp, hw, if_true]

/-- Iterated publishing: a non-empty run of parseable items ends with
a document whose items are the capped, newest-first merge of the run
with whatever was there before. -/
theorem publishAll_ok (env : RSSEnv) (fn : String) (cf : List String)
    (hw : env.writeOk = true) :
    ∀ (its : List RSSInputItem) (cur : Option FeedDoc),
      (∀ i ∈ its, (env.parse i.timestamp).isSome) → its ≠ [] →
      ∃ fd, publishAll env fn cf its cur = Except.ok (some fd) ∧
        fd.items = ((its.map (mkEntry env fn)).reverse ++ itemsOf cur).take 20 := by
  intro its
  induction its with
  | nil => exact fun cur _ hne => absurd rfl hne
  | cons i rest ih =>
    intro cur hp _
    obtain ⟨ts, hts⟩ := Option.isSome_iff_exists.mp
      (hp i (List.mem_cons_self i rest))
    have hstep := create_or_update_feed_ok env fn cf i cur ts hts hw
    rcases rest with _ | ⟨j, rest2⟩
    · simp only [publishAll, hstep]
      exact ⟨_, rfl, by simp [List.take_succ_cons]⟩
    · have hne2 : j :: rest2 ≠ [] := by simp
      obtain ⟨fd, hfd, hitems⟩ := ih (some
        { channel_title := fn ++ " Updates",
          channel_link :=
            match latestFile cf with
            | some lf => env.base_url ++ "/content/" ++ fn ++ "/" ++ lf
            | none => env.base_url ++ "/feeds/" ++ fn ++ ".xml",
          channel_description := "Updates from " ++ fn,
          items := mkEntry env fn i :: (itemsOf cur).take 19 })
        (fun x hx => hp x (List.mem_cons_of_mem i hx)) hne2
      refine ⟨fd, ?_, ?_⟩
      · simp only [publishAll, hstep]
        exact hfd
      · rw [hitems]
        simp only [itemsOf]
        rw [take20_absorb]
        simp [List.append_assoc]

/-- Claim C2: every successful `create_or_update_feed` call writes the
new entry first followed by at most the first 19 previously recorded
entries in their prior order (never more than 20 in total); hence
`N ≥ 20` successive publishes leave exactly the 20 newest entries,
newest-first by publish order. -/
theorem create_or_update_feed_cap :
    (∀ (env : RSSEnv) (fn : String) (cf : List String) (it : RSSInputItem)
        (cur : Option FeedDoc) (ts : ℚ),
        env.parse it.timestamp = some ts → env.writeOk = true →
        ∃ fd, create_or_update_feed env fn cf it cur = Except.ok fd ∧
          fd.items = mkEntry env fn it :: (itemsOf cur).take 19 ∧
          fd.items.length ≤ 20) ∧
    (∀ (env : RSSEnv) (fn : String) (cf : List String)
        (its : List RSSInputItem) (cur : Option FeedDoc),
        env.writeOk = true →
        (∀ i ∈ its, (env.parse i.timestamp).isSome) →
        20 ≤ its.length →
        ∃ fd, publishAll env fn cf its cur = Except.ok (some fd) ∧
          fd.items = ((its.map (mkEntry env fn)).reverse).take 20 ∧
          fd.items.length = 20) := by
  constructor
  · intro env fn cf it cur ts hp hw
    refine ⟨_, create_or_update_feed_ok env fn cf it cur ts hp hw, rfl, ?_⟩
    simp only [List.length_cons, List.length_take]
    omega
  · intro env fn cf its cur hw hp hlen
    have hne : its ≠ [] := by
      intro h
      rw [h] at hlen
      simp at hlen
    obtain ⟨fd, hfd, hitems⟩ := publishAll_ok env fn cf hw its cur hp hne
    refine ⟨fd, hfd, ?_, ?_⟩
    · rw [hitems, List.take_append_of_le_length]
      simp [hlen]
    · rw [hitems]
      simp only [List.length_take, List.length_append, List.length_reverse,
        List.length_map]
      omega

/-- Witness for C2: twenty successive publishes of a concrete item
starting from no feed document leave exactly 20 entries. -/
theorem create_or_update_feed_cap_w :
    ∃ fd, publishAll rssEnvW "site" [] (List.replicate 20 itW) none =
        Except.ok (some fd) ∧
      fd.items =
        (((List.replicate 20 itW).map (mkEntry rssEnvW "site")).reverse).take 20 ∧
      fd.items.length = 20 :=
  create_or_update_feed_cap.2 rssEnvW "site" [] (List.replicate 20 itW) none rfl
    (fun _ _ => rfl) (by simp)

/-! ## Line splitting and joining -/

/-- `split('\n')` never yields an empty list of lines. -/
theorem splitNl_ne_nil (d : List Char) : splitNl d ≠ [] := by
  induction d with
  | nil => simp [splitNl]
  | cons c r ih =>
    simp only [splitNl]
    split
    · simp
    · split <;> simp

/-- Lines produced by `split('\n')` contain no newline. -/
theorem noNl_splitNl (d : List Char) : ∀ l ∈ splitNl d, '\n' ∉ l := by
  induction d with
  | nil =>
    intro l hl
    simp only [splitNl, List.mem_singleton] at hl
    subst hl
    simp
  | cons c r ih =>
    intro l hl
    simp only [splitNl] at hl
    by_cases hc : c = '\n'
    · rw [if_pos hc] at hl
      rcases List.mem_cons.mp hl with h | h
      · subst h
        simp
      · exact ih l h
    · rw [if_neg hc] at hl
      rcases hsp : splitNl r with _ | ⟨h0, t0⟩
      · exact absurd hsp (splitNl_ne_nil r)
      · rw [hsp] at hl
        rcases List.mem_cons.mp hl with h | h
        · subst h
          intro hmem
          rcases List.mem_cons.mp hmem with h2 | h2
          · exact hc h2.symm
          · exact ih h0 (hsp ▸ List.mem_cons_self h0 t0) h2
        · exact ih l (hsp ▸ List.mem_cons_of_mem h0 h)

/-- `'\n'.join` undoes `split('\n')`. -/
theorem joinNl_splitNl (d : List Char) : joinNl (splitNl d) = d := by
  induction d with
  | nil => rfl
  | cons c r ih =>
    simp only [splitNl]
    by_cases hc : c = '\n'
    · rw [if_pos hc]
      subst hc
      rcases hsp : splitNl r with _ | ⟨h0, t0⟩
      · exact absurd hsp (splitNl_ne_nil r)
      · rw [hsp] at ih
        show joinNl ([] :: h0 :: t0) = '\n' :: r
        simp only [joinNl, List.nil_append]
        rw [ih]
    · rw [if_neg hc]
      rcases hsp : splitNl r with _ | ⟨h0, t0⟩
      · exact absurd hsp (splitNl_ne_nil r)
      · rw [hsp] at ih
        rcases t0 with _ | ⟨t1, t2⟩
        · simp only [joinNl] at ih ⊢
          rw [ih]
        · simp only [joinNl] at ih ⊢
          rw [List.cons_append, ih]

/-- A newline-free string splits into itself. -/
theorem splitNl_noNl (l : List Char) (h : '\n' ∉ l) : splitNl l = [l] := by
  induction l with
  | nil => rfl
  | cons c r ih =>
    have hc : ¬ (c = '\n') :=
      fun hh => h (hh ▸ List.mem_cons_self c r)
    simp only [splitNl, if_neg hc]
    rw [ih (fun hm => h (List.mem_cons_of_mem c hm))]

/-- Splitting after a newline-free prefix peels off one line. -/
theorem splitNl_append_newline (l t : List Char) (h : '\n' ∉ l) :
    splitNl (l ++ '\n' :: t) = l :: splitNl t := by
  induction l with
  | nil => simp [splitNl]
  | cons c r ih =>
    have hc : ¬ (c = '\n') :=
      fun hh => h (hh ▸ List.mem_cons_self c r)
    simp only [List.cons_append, splitNl, if_neg hc, List.append_eq]
    rw [ih (fun hm => h (List.mem_cons_of_mem c hm))]

/-- `split('\n')` undoes `'\n'.join` on newline-free lines. -/
theorem splitNl_joinNl (ls : List (List Char)) (hne : ls ≠ [])
    (hn : ∀ l ∈ ls, '\n' ∉ l) : splitNl (joinNl ls) = ls := by
  induction ls with
  | nil => exact absurd rfl hne
  | cons l ls ih =>
    rcases ls with _ | ⟨l2, ls2⟩
    · simp only [joinNl]
      exact splitNl_noNl l (hn l (List.mem_cons_self l []))
    · simp only [joinNl]
      rw [splitNl_append_newline l _ (hn l (List.mem_cons_self l (l2 :: ls2)))]
      rw [ih (by simp) (fun x hx => hn x (List.mem_cons_of_mem l hx))]

/-! ## Hunk-header parsing and rendering -/

/-- `takeWhile`/`dropWhile` on a digit run followed by a non-digit. -/
theorem span_digits_append (a r : List Char)
    (ha : ∀ c ∈ a, c.isDigit = true)
    (hr : ∀ c, r.head? = some c → c.isDigit = false) :
    (a ++ r).takeWhile Char.isDigit = a ∧
    (a ++ r).dropWhile Char.isDigit = r := by
  induction a with
  | nil =>
    simp only [List.nil_append]
    cases r with
    | nil => simp
    | cons c t =>
      have hc := hr c rfl
      simp [List.takeWhile_cons, List.dropWhile_cons, hc]
  | cons x xs ih =>
    have hx : x.isDigit = true := ha x (List.mem_cons_self x xs)
    have ih2 := ih (fun c hc => ha c (List.mem_cons_of_mem x hc))
    simp [List.takeWhile_cons, List.dropWhile_cons, hx, ih2.1, ih2.2]

/-- `parsePair` inverts the rendering `a[,b]r` of a captured pair when
`a` is a non-empty digit run, `b` a digit run, and `r` starts with a
character that is neither a digit nor a comma. -/
theorem parsePair_render (a b r : List Char)
    (ha : a ≠ []) (had : ∀ c ∈ a, c.isDigit = true)
    (hbd : ∀ c ∈ b, c.isDigit = true)
    (hr : ∀ c, r.head? = some c → c.isDigit = false ∧ c ≠ ',') :
    parsePair (a ++ (if b = [] then [] else ',' :: b) ++ r) = some (a, b, r) := by
  have hrdig : ∀ c, r.head? = some c → c.isDigit = false :=
    fun c hc => (hr c hc).1
  have hrhead : ¬ (r.head? = some ',') := by
    rcases r with _ | ⟨c, t⟩
    · simp
    · have := (hr c rfl).2
      simp [this]
  by_cases hb : b = []
  · rw [if_pos hb]
    subst hb
    simp only [List.append_nil]
    obtain ⟨h1, h2⟩ := span_digits_append a r had hrdig
    have htr : r.takeWhile Char.isDigit = [] ∧ r.dropWhile Char.isDigit = r := by
      rcases r with _ | ⟨c, t⟩
      · simp
      · have hc := hrdig c rfl
        simp [List.takeWhile_cons, List.dropWhile_cons, hc]
    simp only [parsePair, h1, h2, if_neg ha, if_neg hrhead, htr.1, htr.2]
  · rw [if_neg hb]
    have hstep : a ++ (',' :: b) ++ r = a ++ (',' :: (b ++ r)) := by
      simp [List.append_assoc]
    rw [hstep]
    obtain ⟨h1, h2⟩ := span_digits_append a (',' :: (b ++ r)) had
      (fun c hc => by
        simp only [List.head?_cons, Option.some.injEq] at hc
        subst hc
        decide)
    obtain ⟨h3, h4⟩ := span_digits_append b r hbd hrdig
    simp only [parsePair, h1, h2, if_neg ha, List.head?_cons, Option.some.injEq,
      if_true, List.tail_cons, h3, h4]

/-- `parseHunkHeader` inverts `renderHeader` on headers whose starts
are non-empty digit runs and whose counts are digit runs. -/
theorem parseHunkHeader_render (h : Hunk)
    (h1 : h.oldStart ≠ []) (h2 : ∀ c ∈ h.oldStart, c.isDigit = true)
    (h3 : ∀ c ∈ h.oldCount, c.isDigit = true)
    (h4 : h.newStart ≠ []) (h5 : ∀ c ∈ h.newStart, c.isDigit = true)
    (h6 : ∀ c ∈ h.newCount, c.isDigit = true) :
    parseHunkHeader (renderHeader h) = some h := by
  obtain ⟨a, b, c, d, rest⟩ := h
  simp only [renderHeader] at *
  have e1 := parsePair_render a b
    (' ' :: '+' :: (c ++ (if d = [] then [] else ',' :: d) ++
      ' ' :: '@' :: '@' :: rest)) h1 h2 h3
    (fun ch hch => by
      simp only [List.head?_cons, Option.some.injEq] at hch
      subst hch
      exact ⟨rfl, by decide⟩)
  have e2 := parsePair_render c d (' ' :: '@' :: '@' :: rest) h4 h5 h6
    (fun ch hch => by
      simp only [List.head?_cons, Option.some.injEq] at hch
      subst hch
      exact ⟨rfl, by decide⟩)
  simp only [parseHunkHeader, e1, e2]

/-- Unpacking `isValidHeader`: the parsed hunk, the render round-trip
and the digit-run facts about its captured groups. -/
theorem isValidHeader_elim (l : List Char) (hv : isValidHeader l = true) :
    ∃ h : Hunk, parseHunkHeader l = some h ∧ renderHeader h = l ∧
      h.oldStart ≠ [] ∧ (∀ c ∈ h.oldStart, c.isDigit = true) ∧
      (∀ c ∈ h.oldCount, c.isDigit = true) ∧
      h.newStart ≠ [] ∧ (∀ c ∈ h.newStart, c.isDigit = true) ∧
      (∀ c ∈ h.newCount, c.isDigit = true) := by
  rcases hp : parseHunkHeader l with _ | h
  · rw [isValidHeader, hp] at hv
    cases hv
  · rw [isValidHeader, hp] at hv
    simp only [Bool.and_eq_true, beq_iff_eq, decide_eq_true_eq,
      List.all_eq_true] at hv
    obtain ⟨⟨⟨⟨⟨⟨hrender, hne1⟩, hd1⟩, hd2⟩, hne2⟩, hd3⟩, hd4⟩ := hv
    exact ⟨h, rfl, hrender, hne1, hd1, hd2, hne2, hd3, hd4⟩

/-- A rendered header with digit-run groups is a valid header line. -/
theorem isValidHeader_render (h : Hunk)
    (h1 : h.oldStart ≠ []) (h2 : ∀ c ∈ h.oldStart, c.isDigit = true)
    (h3 : ∀ c ∈ h.oldCount, c.isDigit = true)
    (h4 : h.newStart ≠ []) (h5 : ∀ c ∈ h.newStart, c.isDigit = true)
    (h6 : ∀ c ∈ h.newCount, c.isDigit = true) :
    isValidHeader (renderHeader h) = true := by
  have hp := parseHunkHeader_render h h1 h2 h3 h4 h5 h6
  rw [isValidHeader, hp]
  simp only [Bool.and_eq_true, beq_iff_eq, decide_eq_true_eq, List.all_eq_true]
  exact ⟨⟨⟨⟨⟨⟨trivial, h1⟩, h2⟩, h3⟩, h4⟩, h5⟩, h6⟩

/-- Swapping a hunk twice is the identity. -/
theorem swapHunk_swapHunk (h : Hunk) : swapHunk (swapHunk h) = h := by
  cases h
  rfl

/-- `generate_reverse_diff` on a parsed header line: the single
swapped header. -/
theorem reverseLine_header (l : List Char) (h : Hunk)
    (hp : parseHunkHeader l = some h) (hr : renderHeader h = l) :
    reverseLine l = [renderHeader (swapHunk h)] := by
  subst hr
  have hsw : startsWithL ['@', '@'] (renderHeader h) = true := rfl
  simp only [reverseLine, hsw, if_true, hp]

/-- A true one-character `startswith` exposes the head. -/
theorem startsWith1_elim (p : Char) (l : List Char)
    (h : startsWithL [p] l = true) : ∃ t, l = p :: t := by
  cases l with
  | nil => cases h
  | cons c t =>
    refine ⟨t, ?_⟩
    simp only [startsWithL, Bool.and_eq_true, beq_iff_eq] at h
    rw [h.1]

/-- One valid line reverses to exactly one valid line, reversing back
to the original; its characters come from the original line or from
the fixed header alphabet (so newline-freeness is preserved). -/
theorem reverseLine_valid (l : List Char) (hv : validLine l = true) :
    ∃ x, reverseLine l = [x] ∧ validLine x = true ∧ reverseLine x = [l] ∧
      (∀ ch ∈ x, ch ∈ l ∨ ch ∈ ['@', ' ', '-', '+', ',']) := by
  simp only [validLine, Bool.or_eq_true] at hv
  rcases hv with ⟨⟨⟨hh | hplus⟩ | hminus⟩ | hspace⟩ | hnil
  · -- hunk header
    obtain ⟨h, hp, hrender, hne1, hd1, hd2, hne2, hd3, hd4⟩ :=
      isValidHeader_elim l hh
    refine ⟨renderHeader (swapHunk h), reverseLine_header l h hp hrender,
      ?_, ?_, ?_⟩
    · have hval : isValidHeader (renderHeader (swapHunk h)) = true :=
        isValidHeader_render (swapHunk h) hne2 hd3 hd4 hne1 hd1 hd2
      simp [validLine, hval]
    · have hp2 : parseHunkHeader (renderHeader (swapHunk h)) =
          some (swapHunk h) :=
        parseHunkHeader_render (swapHunk h) hne2 hd3 hd4 hne1 hd1 hd2
      rw [reverseLine_header (renderHeader (swapHunk h)) (swapHunk h) hp2 rfl,
        swapHunk_swapHunk, hrender]
    · intro ch hch
      rw [← hrender]
      obtain ⟨a, b, c, d, rest⟩ := h
      by_cases hb : b = [] <;> by_cases hd : d = [] <;>
        simp [renderHeader, swapHunk, hb, hd] at hch ⊢ <;> tauto
  · -- '+' line
    obtain ⟨t, rfl⟩ := startsWith1_elim '+' l hplus
    exact ⟨'-' :: t, rfl, rfl, rfl, fun ch hch => by
      rcases List.mem_cons.mp hch with h | h
      · subst h
        simp
      · exact Or.inl (List.mem_cons_of_mem '+' h)⟩
  · -- '-' line
    obtain ⟨t, rfl⟩ := startsWith1_elim '-' l hminus
    exact ⟨'+' :: t, rfl, rfl, rfl, fun ch hch => by
      rcases List.mem_cons.mp hch with h | h
      · subst h
        simp
      · exact Or.inl (List.mem_cons_of_mem '-' h)⟩
  · -- context line
    obtain ⟨t, rfl⟩ := startsWith1_elim ' ' l hspace
    exact ⟨' ' :: t, rfl, rfl, rfl, fun ch hch => Or.inl hch⟩
  · -- empty line
    rw [decide_eq_true_eq] at hnil
    subst hnil
    exact ⟨[], rfl, rfl, rfl, fun ch hch => absurd hch (List.not_mem_nil ch)⟩

/-- Lifting `reverseLine_valid` over a run of valid, newline-free
lines: the loop emits one valid newline-free line per input line, and
a second pass restores the input. -/
theorem reverse_lines_spec (ls : List (List Char))
    (hv : ∀ l ∈ ls, validLine l = true) (hn : ∀ l ∈ ls, '\n' ∉ l) :
    ∃ ls2, (ls.map reverseLine).flatten = ls2 ∧
      ls2.length = ls.length ∧
      (∀ x ∈ ls2, validLine x = true) ∧ (∀ x ∈ ls2, '\n' ∉ x) ∧
      (ls2.map reverseLine).flatten = ls := by
  induction ls with
  | nil => exact ⟨[], rfl, rfl, fun x hx => absurd hx (List.not_mem_nil x),
      fun x hx => absurd hx (List.not_mem_nil x), rfl⟩
  | cons l ls ih =>
    obtain ⟨x, hx1, hx2, hx3, hchars⟩ :=
      reverseLine_valid l (hv l (List.mem_cons_self l ls))
    obtain ⟨ls2, hl1, hlen, hl2, hl3, hl4⟩ :=
      ih (fun y hy => hv y (List.mem_cons_of_mem l hy))
        (fun y hy => hn y (List.mem_cons_of_mem l hy))
    have hxn : '\n' ∉ x := by
      intro hmem
      rcases hchars '\n' hmem with h | h
      · exact hn l (List.mem_cons_self l ls) h
      · simp at h
    refine ⟨x :: ls2, ?_, ?_, ?_, ?_, ?_⟩
    · simp only [List.map_cons, List.flatten_cons, hx1, hl1,
        List.singleton_append]
    · simp [hlen]
    · intro y hy
      rcases List.mem_cons.mp hy with h | h
      · exact h ▸ hx2
      · exact hl2 y h
    · intro y hy
      rcases List.mem_cons.mp hy with h | h
      · exact h ▸ hxn
      · exact hl3 y h
    · simp only [List.map_cons, List.flatten_cons, hx3, hl4,
        List.singleton_append]

/-! ## Claim C6 — reverse diff is an involution on valid diffs -/

/-- Claim C6: on a valid unified diff — every line a hunk header
matching `@@ -a[,b] +c[,d] @@`, a `+` line, a `-` line, or a context
line — `generate_reverse_diff` swaps `+` and `-` line prefixes, swaps
the two start/length pairs of every hunk header, leaves context lines
unchanged, and applying it twice restores the diff exactly. -/
theorem generate_reverse_diff_involution (d : List Char) (hv : ValidDiff d) :
    generate_reverse_diff (generate_reverse_diff d) = d ∧
    (∀ t, ('+' :: t) ∈ splitNl d → reverseLine ('+' :: t) = [('-' :: t)]) ∧
    (∀ t, ('-' :: t) ∈ splitNl d → reverseLine ('-' :: t) = [('+' :: t)]) ∧
    (∀ t, (' ' :: t) ∈ splitNl d → reverseLine (' ' :: t) = [(' ' :: t)]) ∧
    (∀ l h, l ∈ splitNl d → parseHunkHeader l = some h →
      isValidHeader l = true →
      reverseLine l = [renderHeader (swapHunk h)]) := by
  refine ⟨?_, fun t _ => rfl, fun t _ => rfl, fun t _ => rfl, ?_⟩
  · obtain ⟨ls2, h1, hlen, h2, h3, h4⟩ :=
      reverse_lines_spec (splitNl d) hv (noNl_splitNl d)
    have hne2 : ls2 ≠ [] := by
      intro h
      rw [h] at hlen
      exact splitNl_ne_nil d (List.length_eq_zero.mp hlen.symm)
    have hgrd : generate_reverse_diff d = joinNl ls2 := by
      rw [generate_reverse_diff, h1]
    have hsplit2 : splitNl (generate_reverse_diff d) = ls2 := by
      rw [hgrd]
      exact splitNl_joinNl ls2 hne2 h3
    calc generate_reverse_diff (generate_reverse_diff d)
        = joinNl ((splitNl (generate_reverse_diff d)).map reverseLine).flatten :=
          rfl
      _ = joinNl ((ls2.map reverseLine).flatten) := by rw [hsplit2]
      _ = joinNl (splitNl d) := by rw [h4]
      _ = d := joinNl_splitNl d
  · intro l h _ hp hval
    obtain ⟨h2, hp2, hrender, -⟩ := isValidHeader_elim l hval
    rw [hp] at hp2
    cases hp2
    exact reverseLine_header l h hp hrender

/-- Witness for C6 on a concrete four-line diff. -/
theorem generate_reverse_diff_involution_w :
    generate_reverse_diff (generate_reverse_diff dC6W) = dC6W :=
  (generate_reverse_diff_involution dC6W (by decide)).1

/-! ## Claim C7 — diff validation -/

/-- Claim C7 counterexample: `validate_diff` accepts a non-empty diff
that contains no hunk-header line at all (no line even starts with
`@@`): the substring test `'@@ ' in diff_text` is satisfied *inside* a
`+` line of `"+a @@ b"`.  So "valid iff it contains at least one hunk
header and every non-empty line has a valid prefix" is false as
stated. -/
theorem validate_diff_counterexample :
    ¬ (∀ d : List Char, validate_diff d = true ↔
        (d = [] ∨ ((∃ l ∈ splitNl d, isValidHeader l = true) ∧
          ∀ l ∈ splitNl d, l ≠ [] →
            (startsWithL ['@', '@'] l = true ∨ startsWithL ['+'] l = true ∨
             startsWithL ['-'] l = true ∨ startsWithL [' '] l = true)))) := by
  intro hcl
  have h := (hcl dC7).mp (by decide)
  rcases h with h | ⟨⟨l, hl, hh⟩, -⟩
  · exact absurd h (by decide)
  · have hfalse : ∀ x ∈ splitNl dC7, isValidHeader x = false := by decide
    rw [hfalse l hl] at hh
    cases hh

/-- Claim C7 (amended): an empty diff is valid; a non-empty diff is
valid iff the three-character substring `"@@ "` occurs somewhere in it
— not necessarily as a hunk-header line — and every non-empty line
begins with `@@`, `+`, `-`, or a space. -/
theorem validate_diff_spec (d : List Char) :
    validate_diff d = true ↔
      (d = [] ∨ (containsSub ("@@ ").data d = true ∧
        ∀ l ∈ splitNl d, l ≠ [] →
          (startsWithL ['@', '@'] l = true ∨ startsWithL ['+'] l = true ∨
           startsWithL ['-'] l = true ∨ startsWithL [' '] l = true))) := by
  by_cases hd : d = []
  · simp [validate_diff, hd]
  · simp only [validate_diff, hd, if_false]
    by_cases hc : containsSub ("@@ ").data d = true
    · simp only [hc, Bool.not_true, Bool.false_eq_true, if_false]
      rw [List.all_eq_true]
      constructor
      · intro hall
        refine Or.inr ⟨trivial, fun l hl hlne => ?_⟩
        have h := hall l hl
        rw [if_neg hlne] at h
        simp only [Bool.or_eq_true] at h
        tauto
      · rintro (h | ⟨-, h⟩)
        · exact h.elim
        · intro l hl
          by_cases hlne : l = []
          · simp [hlne]
          · rw [if_neg hlne]
            have h2 := h l hl hlne
            simp only [Bool.or_eq_true]
            tauto
    · have hcf : containsSub ("@@ ").data d = false :=
        Bool.eq_false_iff.mpr hc
      simp [hcf, hd]

/-- Witness for C7 (amended) on a concrete valid diff. -/
theorem validate_diff_spec_w : validate_diff dC7ok = true :=
  (validate_diff_spec dC7ok).mpr (by decide)

end Watcher
